import Mathlib

/-!
Verification of the data-normalization and enrichment pipeline of the
AI_Fitness repository (garmin_activities_daily.py, garmin_stats_daily.py,
activity_filter.py).  Untyped Python payloads (nested dict/list/scalar
structures as produced by JSON decoding) are modelled by the inductive
type `JValue`; Python floats are modelled as exact rationals.
-/

namespace AIFitness

/-- Model of a decoded JSON/Python payload value: None, bool, number
(int/float, modelled as an exact rational), str, dict, list. -/
inductive JValue where
  | null : JValue
  | bool (b : Bool) : JValue
  | num (q : ℚ) : JValue
  | str (s : String) : JValue
  | obj (fields : List (String × JValue)) : JValue
  | arr (items : List JValue) : JValue

/-- A Python dict with string keys, as passed around for activities and details. -/
abbrev JObj := List (String × JValue)

/-- Python `d.get(key)`: value of the last binding of `key` (dict insertion
is last-wins), or `none` when the key is absent. -/
def dict_get (fields : JObj) (key : String) : Option JValue :=
  (fields.filterMap (fun kv => if kv.1 = key then some kv.2 else none)).getLast?

/-- Python truthiness of a payload value (`bool(v)`). -/
def jTruthy : JValue → Bool
  | .null => false
  | .bool b => b
  | .num q => decide (q ≠ 0)
  | .str s => decide (s ≠ "")
  | .obj fields => !fields.isEmpty
  | .arr items => !items.isEmpty

/-- Python `a or b` on payload values: `a` when truthy, else `b`. -/
def pyOr (a b : JValue) : JValue :=
  if jTruthy a then a else b

/-- Python `str(v)` for the scalar payload values the pipeline stringifies
(identifiers and labels).  Containers never reach a `str()` call site in
the modelled code paths, so their (Python-specific) repr is left as `""`.
Floats with a fractional part would print differently in Python; the ids
and labels stringified by the code are ints and strs. -/
def jStr : JValue → String
  | .null => "None"
  | .bool b => if b then "True" else "False"
  | .num q => if q.den = 1 then toString q.num else toString q
  | .str s => s
  | .obj _ => ""
  | .arr _ => ""

/-- Python `s.strip()` on a character list: drop leading and trailing
whitespace. -/
def stripChars (cs : List Char) : List Char :=
  ((cs.dropWhile Char.isWhitespace).reverse.dropWhile Char.isWhitespace).reverse

/-- Python `s.lower()` (modelled on ASCII letters). -/
def strLower (s : String) : String :=
  String.mk (s.toList.map Char.toLower)

/-- Code-point comparison `a <= b` on character lists, Python's string
ordering.  (Core `String.le` is iterator-based and does not reduce in the
kernel, so the comparison is modelled directly.) -/
def charListLe : List Char → List Char → Bool
  | [], _ => true
  | _ :: _, [] => false
  | a :: as, b :: bs =>
    if a.toNat < b.toNat then true
    else if b.toNat < a.toNat then false
    else charListLe as bs

/-- Python `a <= b` on strings. -/
def strLe (a b : String) : Bool :=
  charListLe a.toList b.toList

/-- Python `a < b` on strings. -/
def strLt (a b : String) : Bool :=
  strLe a b && !(a == b)

/-- Digits to a natural number (auxiliary for modelling `float(str)`). -/
def digitsVal (ds : List Char) : Nat :=
  ds.foldl (fun acc c => 10 * acc + (c.toNat - '0'.toNat)) 0

/-- Model of Python `float(s)` on strings: optional surrounding whitespace,
optional sign, decimal digits with optional fraction and exponent, value
taken as an exact rational.  `inf`/`nan`, underscores and hex floats are
not modelled (they do not occur in the payloads at issue). -/
def pyFloatOfString? (s : String) : Option ℚ :=
  let cs := stripChars s.toList
  let (sign, cs) : ℚ × List Char :=
    match cs with
    | '+' :: rest => (1, rest)
    | '-' :: rest => (-1, rest)
    | rest => (1, rest)
  let intDigits := cs.takeWhile Char.isDigit
  let cs := cs.dropWhile Char.isDigit
  let (fracDigits, cs) : List Char × List Char :=
    match cs with
    | '.' :: rest => (rest.takeWhile Char.isDigit, rest.dropWhile Char.isDigit)
    | rest => ([], rest)
  if intDigits.isEmpty ∧ fracDigits.isEmpty then none
  else
    let mantissa : ℚ :=
      (digitsVal intDigits : ℚ) + (digitsVal fracDigits : ℚ) / ((10 : ℚ) ^ fracDigits.length)
    match cs with
    | [] => some (sign * mantissa)
    | 'e' :: rest => pyFloatExp sign mantissa rest
    | 'E' :: rest => pyFloatExp sign mantissa rest
    | _ => none
where
  /-- Exponent part of `float(s)`. -/
  pyFloatExp (sign mantissa : ℚ) (cs : List Char) : Option ℚ :=
    let (esign, cs) : Int × List Char :=
      match cs with
      | '+' :: rest => (1, rest)
      | '-' :: rest => (-1, rest)
      | rest => (1, rest)
    let eDigits := cs.takeWhile Char.isDigit
    let cs := cs.dropWhile Char.isDigit
    if eDigits.isEmpty ∨ ¬ cs.isEmpty then none
    else some (sign * mantissa * (10 : ℚ) ^ (esign * (digitsVal eDigits : Int)))

/-- `safe_float` (garmin_activities_daily.py): `float(v)` guarded by
try/except, returning the value only when it is `> 0`, else `None`.
Note Python `bool` is an `int` subclass, so `float(True) = 1.0`. -/
def safe_float : JValue → Option ℚ
  | .null => none
  | .bool b => if b then some 1 else none
  | .num q => if 0 < q then some q else none
  | .str s =>
    match pyFloatOfString? s with
    | some x => if 0 < x then some x else none
    | none => none
  | .obj _ => none
  | .arr _ => none

/-- Substring test on character lists (Python `sub in hay`). -/
def charsContain (hay sub : List Char) : Bool :=
  if sub.isPrefixOf hay then true
  else
    match hay with
    | [] => false
    | _ :: t => charsContain t sub

/-- Python `sub in hay` for strings. -/
def strContainsStr (hay sub : String) : Bool :=
  charsContain hay.toList sub.toList

/-- `normalize_key` (garmin_activities_daily.py): strip, lowercase,
spaces to underscores.  (`.replace(" ", "_")` with a one-character pattern
is the character-wise substitution.) -/
def normalize_key (s : String) : String :=
  String.mk (((stripChars s.toList).map Char.toLower).map
    (fun c => if c = ' ' then '_' else c))

/-- `_norm` (activity_filter.py): identical strip/lower/underscore
normalization used by the activity-type filter. -/
def _norm (s : String) : String :=
  String.mk (((stripChars s.toList).map Char.toLower).map
    (fun c => if c = ' ' then '_' else c))

/-- `_norm_key` (garmin_activities_daily.py): lowercase then drop all
non-alphanumeric characters, for strict key matching. -/
def _norm_key (k : String) : String :=
  String.mk ((k.toList.map Char.toLower).filter Char.isAlphanum)

/-- The per-key hint check of `scan_for_keys`: when the lowercased key
contains any hint substring, the value is coerced via `safe_float`. -/
def scanKeyHit (k : String) (v : JValue) (key_hints : List String) : Option ℚ :=
  if key_hints.any (fun h => strContainsStr (strLower k) h) then safe_float v
  else none

mutual

/-- `scan_for_keys` (garmin_activities_daily.py): recursively scan a payload
for numeric values under keys whose lowercased name contains a hint.  A bare
int/float (or bool) anywhere is returned via the scalar branch; on a dict,
each key is first checked against the hints and then its value is recursed
into; dict/list traversal returns the first hit.  (`safe_float` results are
always positive, so Python truthiness of a hit coincides with `isSome`.) -/
def scan_for_keys (obj : JValue) (key_hints : List String) : Option ℚ :=
  match obj with
  | .null => none
  | .num q => safe_float (.num q)
  | .bool b => safe_float (.bool b)
  | .str _ => none
  | .obj fields => scanFields fields key_hints
  | .arr items => scanItems items key_hints
termination_by structural obj

/-- Dict part of `scan_for_keys`. -/
def scanFields (fields : List (String × JValue)) (key_hints : List String) : Option ℚ :=
  match fields with
  | [] => none
  | (k, v) :: rest =>
    match scanKeyHit k v key_hints with
    | some val => some val
    | none =>
      match scan_for_keys v key_hints with
      | some found => some found
      | none => scanFields rest key_hints
termination_by structural fields

/-- List part of `scan_for_keys`. -/
def scanItems (items : List JValue) (key_hints : List String) : Option ℚ :=
  match items with
  | [] => none
  | item :: rest =>
    match scan_for_keys item key_hints with
    | some found => some found
    | none => scanItems rest key_hints
termination_by structural items

end

/-- The fixed allow-list of `extract_ftp_watts_strict`
(garmin_activities_daily.py). -/
def ftp_allowed_keys : List String :=
  ["functionalthresholdpower", "latestfunctionalthresholdpower",
   "thresholdpower", "ftp", "ftpwatts", "cyclingftp"]

/-- The once-unwrapped nested case of `extract_ftp_watts_strict`: when the
value under a matched key is itself a dict, its `value` field is coerced
and bounds-checked.  (`safe_float` of an absent field is `safe_float(None)`.) -/
def ftp_strict_unwrap (v : JValue) : Option ℚ :=
  match v with
  | .obj fs =>
    match safe_float ((dict_get fs "value").getD .null) with
    | some vv => if 50 ≤ vv ∧ vv ≤ 1200 then some vv else none
    | none => none
  | _ => none

/-- The per-key step of the strict walk: a key is productive only when its
`_norm_key` form is in the allow-list; its value is bounds-checked, with the
once-unwrapped nested `value` dict as second chance. -/
def ftp_strict_direct (k : String) (v : JValue) : Option ℚ :=
  if ftp_allowed_keys.contains (_norm_key k) then
    match safe_float v with
    | some val =>
      if 50 ≤ val ∧ val ≤ 1200 then some val else ftp_strict_unwrap v
    | none => ftp_strict_unwrap v
  else none

mutual

/-- `walk` inside `extract_ftp_watts_strict` (garmin_activities_daily.py):
only keys whose `_norm_key` form is in the allow-list can produce a value,
the value (or its once-unwrapped nested `value` field) must lie in 50–1200,
and the walk otherwise recurses into dict values and list items. -/
def ftp_strict_walk (x : JValue) : Option ℚ :=
  match x with
  | .obj fields => ftp_strict_walkFields fields
  | .arr items => ftp_strict_walkItems items
  | _ => none
termination_by structural x

/-- Dict part of the strict walk. -/
def ftp_strict_walkFields (fields : List (String × JValue)) : Option ℚ :=
  match fields with
  | [] => none
  | (k, v) :: rest =>
    match ftp_strict_direct k v with
    | some r => some r
    | none =>
      match ftp_strict_walk v with
      | some found => some found
      | none => ftp_strict_walkFields rest
termination_by structural fields

/-- List part of the strict walk. -/
def ftp_strict_walkItems (items : List JValue) : Option ℚ :=
  match items with
  | [] => none
  | item :: rest =>
    match ftp_strict_walk item with
    | some found => some found
    | none => ftp_strict_walkItems rest
termination_by structural items

end

/-- `extract_ftp_watts_strict` (garmin_activities_daily.py). -/
def extract_ftp_watts_strict (obj : JValue) : Option ℚ :=
  ftp_strict_walk obj

/-- `r` sits under an allow-listed key somewhere in the payload: either a
dict binds an allow-listed key directly to a value coercing to `r`, or to a
nested dict whose `value` field coerces to `r`, or such a binding occurs
deeper inside a dict value or a list item. -/
inductive FtpKeyHit : JValue → ℚ → Prop where
  | direct (fields : List (String × JValue)) (k : String) (v : JValue) (r : ℚ) :
      (k, v) ∈ fields → ftp_allowed_keys.contains (_norm_key k) = true →
      safe_float v = some r → FtpKeyHit (.obj fields) r
  | unwrapped (fields : List (String × JValue)) (k : String)
      (fs : List (String × JValue)) (r : ℚ) :
      (k, .obj fs) ∈ fields → ftp_allowed_keys.contains (_norm_key k) = true →
      safe_float ((dict_get fs "value").getD .null) = some r →
      FtpKeyHit (.obj fields) r
  | inField (fields : List (String × JValue)) (k : String) (v : JValue) (r : ℚ) :
      (k, v) ∈ fields → FtpKeyHit v r → FtpKeyHit (.obj fields) r
  | inItem (items : List JValue) (v : JValue) (r : ℚ) :
      v ∈ items → FtpKeyHit v r → FtpKeyHit (.arr items) r

theorem ftpKeyHit_cons (f : String × JValue) (rest : List (String × JValue))
    (r : ℚ) (h : FtpKeyHit (.obj rest) r) : FtpKeyHit (.obj (f :: rest)) r := by
  cases h with
  | direct _ k v _ mem hk hv =>
    exact .direct _ k v _ (List.mem_cons_of_mem f mem) hk hv
  | unwrapped _ k fs _ mem hk hv =>
    exact .unwrapped _ k fs _ (List.mem_cons_of_mem f mem) hk hv
  | inField _ k v _ mem hh =>
    exact .inField _ k v _ (List.mem_cons_of_mem f mem) hh

theorem ftpKeyHit_item_cons (x : JValue) (rest : List JValue)
    (r : ℚ) (h : FtpKeyHit (.arr rest) r) : FtpKeyHit (.arr (x :: rest)) r := by
  cases h with
  | inItem _ v _ mem hh => exact .inItem _ v _ (List.mem_cons_of_mem x mem) hh

theorem ftp_strict_unwrap_sound (v : JValue) (r : ℚ)
    (h : ftp_strict_unwrap v = some r) :
    (50 ≤ r ∧ r ≤ 1200) ∧
      ∃ fs, v = .obj fs ∧ safe_float ((dict_get fs "value").getD .null) = some r := by
  cases v <;> simp only [ftp_strict_unwrap] at h
  case obj fs =>
    cases hv : safe_float ((dict_get fs "value").getD .null) with
    | none => rw [hv] at h; dsimp only at h; exact absurd h (by simp)
    | some vv =>
      rw [hv] at h; dsimp only at h
      by_cases hb : 50 ≤ vv ∧ vv ≤ 1200
      · rw [if_pos hb] at h
        cases h
        exact ⟨hb, fs, rfl, hv⟩
      · rw [if_neg hb] at h
        exact absurd h (by simp)
  all_goals exact absurd h (by simp)

theorem ftp_strict_direct_sound (k : String) (v : JValue) (r : ℚ)
    (h : ftp_strict_direct k v = some r) :
    ftp_allowed_keys.contains (_norm_key k) = true ∧ (50 ≤ r ∧ r ≤ 1200) ∧
      (safe_float v = some r ∨
        ∃ fs, v = .obj fs ∧ safe_float ((dict_get fs "value").getD .null) = some r) := by
  unfold ftp_strict_direct at h
  by_cases hk : ftp_allowed_keys.contains (_norm_key k) = true
  · rw [if_pos hk] at h
    refine ⟨hk, ?_⟩
    cases hv : safe_float v with
    | some val =>
      rw [hv] at h; dsimp only at h
      by_cases hb : 50 ≤ val ∧ val ≤ 1200
      · rw [if_pos hb] at h
        cases h
        exact ⟨hb, .inl rfl⟩
      · rw [if_neg hb] at h
        obtain ⟨hb2, hu⟩ := ftp_strict_unwrap_sound v r h
        exact ⟨hb2, .inr hu⟩
    | none =>
      rw [hv] at h; dsimp only at h
      obtain ⟨hb2, hu⟩ := ftp_strict_unwrap_sound v r h
      exact ⟨hb2, .inr hu⟩
  · rw [if_neg hk] at h
    exact absurd h (by simp)

theorem strict_sound_aux (n : Nat) :
    (∀ x : JValue, sizeOf x ≤ n → ∀ r : ℚ, ftp_strict_walk x = some r →
      (50 ≤ r ∧ r ≤ 1200) ∧ FtpKeyHit x r) ∧
    (∀ fs : List (String × JValue), sizeOf fs ≤ n →
      ∀ r : ℚ, ftp_strict_walkFields fs = some r →
      (50 ≤ r ∧ r ≤ 1200) ∧ FtpKeyHit (.obj fs) r) ∧
    (∀ xs : List JValue, sizeOf xs ≤ n → ∀ r : ℚ, ftp_strict_walkItems xs = some r →
      (50 ≤ r ∧ r ≤ 1200) ∧ FtpKeyHit (.arr xs) r) := by
  induction n using Nat.strong_induction_on with
  | _ n ih =>
    refine ⟨?_, ?_, ?_⟩
    · intro x hx r h
      cases x with
      | obj fields =>
        have hsz : sizeOf fields < n := by simp at hx; omega
        have h' : ftp_strict_walkFields fields = some r := by
          simpa [ftp_strict_walk] using h
        exact (ih _ hsz).2.1 fields le_rfl r h'
      | arr items =>
        have hsz : sizeOf items < n := by simp at hx; omega
        have h' : ftp_strict_walkItems items = some r := by
          simpa [ftp_strict_walk] using h
        exact (ih _ hsz).2.2 items le_rfl r h'
      | null => simp [ftp_strict_walk] at h
      | bool b => simp [ftp_strict_walk] at h
      | num q => simp [ftp_strict_walk] at h
      | str s => simp [ftp_strict_walk] at h
    · intro fs hfs r h
      cases fs with
      | nil => simp [ftp_strict_walkFields] at h
      | cons f rest =>
        obtain ⟨k, v⟩ := f
        rw [ftp_strict_walkFields] at h
        cases hd : ftp_strict_direct k v with
        | some rd =>
          rw [hd] at h
          cases h
          obtain ⟨hk, hb, hsrc⟩ := ftp_strict_direct_sound k v r hd
          refine ⟨hb, ?_⟩
          rcases hsrc with hsf | ⟨fs2, rfl, hval⟩
          · exact .direct _ k v _ (List.mem_cons_self _ _) hk hsf
          · exact .unwrapped _ k fs2 _ (List.mem_cons_self _ _) hk hval
        | none =>
          rw [hd] at h
          cases hw : ftp_strict_walk v with
          | some rv =>
            rw [hw] at h
            cases h
            have hv : sizeOf v < n := by simp at hfs; omega
            have hres := (ih _ hv).1 v le_rfl r hw
            exact ⟨hres.1, .inField _ k v _ (List.mem_cons_self _ _) hres.2⟩
          | none =>
            rw [hw] at h
            have hrest : sizeOf rest < n := by simp at hfs; omega
            have hr := (ih _ hrest).2.1 rest le_rfl r h
            exact ⟨hr.1, ftpKeyHit_cons _ _ _ hr.2⟩
    · intro xs hxs r h
      cases xs with
      | nil => simp [ftp_strict_walkItems] at h
      | cons x rest =>
        rw [ftp_strict_walkItems] at h
        cases hw : ftp_strict_walk x with
        | some rv =>
          rw [hw] at h
          cases h
          have hv : sizeOf x < n := by simp at hxs; omega
          have hres := (ih _ hv).1 x le_rfl r hw
          exact ⟨hres.1, .inItem _ x _ (List.mem_cons_self _ _) hres.2⟩
        | none =>
          rw [hw] at h
          have hrest : sizeOf rest < n := by simp at hxs; omega
          have hr := (ih _ hrest).2.2 rest le_rfl r h
          exact ⟨hr.1, ftpKeyHit_item_cons _ _ _ hr.2⟩

/-- C1: the settings tier of FTP resolution extracts a value via the strict
scan: for every settings payload, `extract_ftp_watts_strict` returns a
number only if it sits under a key whose normalized form (all
non-alphanumeric characters stripped, lowercased) exactly matches the fixed
allow-list, with the value (or its once-unwrapped `value` field) within
50–1200 watts; a matched key whose value is outside that range yields no
result from that key. -/
theorem c1_strict_settings_scan (obj : JValue) (r : ℚ)
    (h : extract_ftp_watts_strict obj = some r) :
    (50 ≤ r ∧ r ≤ 1200) ∧ FtpKeyHit obj r :=
  (strict_sound_aux (sizeOf obj)).1 obj le_rfl r h

/-- Witness for C1 at the concrete settings payload binding key `ftp` to 260. -/
theorem c1_strict_settings_scan_witness :
    (50 ≤ (260 : ℚ) ∧ (260 : ℚ) ≤ 1200) ∧ FtpKeyHit (.obj [("ftp", .num 260)]) 260 :=
  c1_strict_settings_scan (.obj [("ftp", .num 260)]) 260 (by decide)

theorem safe_float_pos (v : JValue) (r : ℚ) (h : safe_float v = some r) : 0 < r := by
  cases v <;> simp only [safe_float] at h
  case bool b =>
    cases b <;> simp at h
    linarith
  case num q =>
    split at h
    · cases h; assumption
    · cases h
  case str s =>
    cases hp : pyFloatOfString? s with
    | none => rw [hp] at h; cases h
    | some x =>
      rw [hp] at h; dsimp only at h
      split at h
      · cases h; assumption
      · cases h
  all_goals cases h

theorem scanKeyHit_sound (k : String) (v : JValue) (key_hints : List String)
    (r : ℚ) (h : scanKeyHit k v key_hints = some r) :
    (key_hints.any fun hh => strContainsStr (strLower k) hh) = true ∧
      safe_float v = some r := by
  unfold scanKeyHit at h
  split at h
  · exact ⟨by assumption, h⟩
  · cases h

mutual

/-- A loose-scan candidate exists in the payload: some nested dict key whose
lowercased name contains a hint has a positively-coercible value, or a
positive bare number (or a `True` boolean) occurs anywhere, at any key. -/
def scanCandidate (key_hints : List String) (x : JValue) : Bool :=
  match x with
  | .null => false
  | .bool b => b
  | .num q => decide (0 < q)
  | .str _ => false
  | .obj fields => scanCandidateFields key_hints fields
  | .arr items => scanCandidateItems key_hints items
termination_by structural x

/-- Dict part of `scanCandidate`. -/
def scanCandidateFields (key_hints : List String) (fields : List (String × JValue)) : Bool :=
  match fields with
  | [] => false
  | (k, v) :: rest =>
    (scanKeyHit k v key_hints).isSome || scanCandidate key_hints v ||
      scanCandidateFields key_hints rest
termination_by structural fields

/-- List part of `scanCandidate`. -/
def scanCandidateItems (key_hints : List String) (items : List JValue) : Bool :=
  match items with
  | [] => false
  | item :: rest => scanCandidate key_hints item || scanCandidateItems key_hints rest
termination_by structural items

end

mutual

/-- The antecedent of claim C3 as stated: some key of some nested mapping
of the payload has a lowercased name containing one of the hint substrings. -/
def anyHintKey (key_hints : List String) (x : JValue) : Bool :=
  match x with
  | .obj fields => anyHintKeyFields key_hints fields
  | .arr items => anyHintKeyItems key_hints items
  | _ => false
termination_by structural x

/-- Dict part of `anyHintKey`. -/
def anyHintKeyFields (key_hints : List String) (fields : List (String × JValue)) : Bool :=
  match fields with
  | [] => false
  | (k, v) :: rest =>
    (key_hints.any fun hh => strContainsStr (strLower k) hh) || anyHintKey key_hints v ||
      anyHintKeyFields key_hints rest
termination_by structural fields

/-- List part of `anyHintKey`. -/
def anyHintKeyItems (key_hints : List String) (items : List JValue) : Bool :=
  match items with
  | [] => false
  | item :: rest => anyHintKey key_hints item || anyHintKeyItems key_hints rest
termination_by structural items

end

theorem scan_sound_aux (n : Nat) :
    (∀ x : JValue, sizeOf x ≤ n → ∀ (key_hints : List String) (r : ℚ),
      scan_for_keys x key_hints = some r → 0 < r ∧ scanCandidate key_hints x = true) ∧
    (∀ fs : List (String × JValue), sizeOf fs ≤ n → ∀ (key_hints : List String) (r : ℚ),
      scanFields fs key_hints = some r → 0 < r ∧ scanCandidateFields key_hints fs = true) ∧
    (∀ xs : List JValue, sizeOf xs ≤ n → ∀ (key_hints : List String) (r : ℚ),
      scanItems xs key_hints = some r → 0 < r ∧ scanCandidateItems key_hints xs = true) := by
  induction n using Nat.strong_induction_on with
  | _ n ih =>
    refine ⟨?_, ?_, ?_⟩
    · intro x hx key_hints r h
      cases x with
      | obj fields =>
        have hsz : sizeOf fields < n := by simp at hx; omega
        have h' : scanFields fields key_hints = some r := by
          simpa [scan_for_keys] using h
        have := (ih _ hsz).2.1 fields le_rfl key_hints r h'
        exact ⟨this.1, by simpa [scanCandidate] using this.2⟩
      | arr items =>
        have hsz : sizeOf items < n := by simp at hx; omega
        have h' : scanItems items key_hints = some r := by
          simpa [scan_for_keys] using h
        have := (ih _ hsz).2.2 items le_rfl key_hints r h'
        exact ⟨this.1, by simpa [scanCandidate] using this.2⟩
      | null => simp [scan_for_keys] at h
      | str s => simp [scan_for_keys] at h
      | num q =>
        have hp : safe_float (.num q) = some r := by simpa [scan_for_keys] using h
        refine ⟨safe_float_pos _ _ hp, ?_⟩
        simp only [safe_float] at hp
        split at hp
        · simp [scanCandidate]; assumption
        · cases hp
      | bool b =>
        have hp : safe_float (.bool b) = some r := by simpa [scan_for_keys] using h
        cases b
        · simp [safe_float] at hp
        · refine ⟨safe_float_pos _ _ hp, by simp [scanCandidate]⟩
    · intro fs hfs key_hints r h
      cases fs with
      | nil => simp [scanFields] at h
      | cons f rest =>
        obtain ⟨k, v⟩ := f
        rw [scanFields] at h
        cases hhit : scanKeyHit k v key_hints with
        | some val =>
          rw [hhit] at h
          cases h
          refine ⟨safe_float_pos v r (scanKeyHit_sound k v key_hints r hhit).2, ?_⟩
          simp [scanCandidateFields, hhit]
        | none =>
          rw [hhit] at h
          cases hs : scan_for_keys v key_hints with
          | some found =>
            rw [hs] at h
            cases h
            have hv : sizeOf v < n := by simp at hfs; omega
            have := (ih _ hv).1 v le_rfl key_hints r hs
            exact ⟨this.1, by simp [scanCandidateFields, this.2]⟩
          | none =>
            rw [hs] at h
            have hrest : sizeOf rest < n := by simp at hfs; omega
            have := (ih _ hrest).2.1 rest le_rfl key_hints r h
            exact ⟨this.1, by simp [scanCandidateFields, this.2]⟩
    · intro xs hxs key_hints r h
      cases xs with
      | nil => simp [scanItems] at h
      | cons x rest =>
        rw [scanItems] at h
        cases hs : scan_for_keys x key_hints with
        | some found =>
          rw [hs] at h
          cases h
          have hv : sizeOf x < n := by simp at hxs; omega
          have := (ih _ hv).1 x le_rfl key_hints r hs
          exact ⟨this.1, by simp [scanCandidateItems, this.2]⟩
        | none =>
          rw [hs] at h
          have hrest : sizeOf rest < n := by simp at hxs; omega
          have := (ih _ hrest).2.2 rest le_rfl key_hints r h
          exact ⟨this.1, by simp [scanCandidateItems, this.2]⟩

/-- C3 counterexample: in the payload `("a", 5)` no nested-mapping key
contains the hint `"power"`, yet the loose scan returns 5 — the scalar
branch returns any positive number reached by recursion, regardless of
key names.  This refutes C3 as stated. -/
theorem c3_loose_scan_counterexample :
    anyHintKey ["power"] (.obj [("a", .num 5)]) = false ∧
    scan_for_keys (.obj [("a", .num 5)]) ["power"] = some 5 :=
  ⟨by decide, by decide⟩

/-- C3 (amended): the loose payload scan returns null whenever the payload
contains no candidate at all — no hint-matched key with a
positively-coercible value and no positive bare number (or `True` boolean)
reachable at any key; and every value it does return is positive (so it
also returns null when every numeric candidate coerces to a non-positive
or non-numeric value). -/
theorem c3_loose_scan_amended (obj : JValue) (key_hints : List String) :
    (scanCandidate key_hints obj = false → scan_for_keys obj key_hints = none) ∧
    (∀ r : ℚ, scan_for_keys obj key_hints = some r → 0 < r) := by
  constructor
  · intro hc
    cases hs : scan_for_keys obj key_hints with
    | none => rfl
    | some r =>
      have := ((scan_sound_aux (sizeOf obj)).1 obj le_rfl key_hints r hs).2
      rw [hc] at this
      cases this
  · intro r hs
    exact ((scan_sound_aux (sizeOf obj)).1 obj le_rfl key_hints r hs).1

/-- Witness for C3 (amended): a candidate-free payload scans to null, and a
returned value is positive on a payload that does produce one. -/
theorem c3_loose_scan_amended_witness :
    scan_for_keys (.obj [("note", .str "easy")]) ["power"] = none ∧ (0 : ℚ) < 5 :=
  ⟨(c3_loose_scan_amended (.obj [("note", .str "easy")]) ["power"]).1 (by decide),
   (c3_loose_scan_amended (.obj [("power", .num 5)]) ["power"]).2 5 (by decide)⟩

/-- Python truthiness of an optional float operand (`not x` is true for
`None` and for `0.0`, false for every other float including negatives). -/
def optTruthy : Option ℚ → Bool
  | none => false
  | some x => decide (x ≠ 0)

/-- Python's round-half-to-even to an integer, on exact rationals. -/
def roundHalfEven (q : ℚ) : ℤ :=
  let f := ⌊q⌋
  if q - f < 1/2 then f
  else if 1/2 < q - f then f + 1
  else if f % 2 = 0 then f else f + 1

/-- Python `round(x, ndigits)` modelled on exact rationals (CPython rounds
the binary double half-to-even at the requested decimal place). -/
def pyRound (ndigits : ℕ) (q : ℚ) : ℚ :=
  (roundHalfEven (q * 10 ^ ndigits) : ℚ) / 10 ^ ndigits

/-- `intensity_factor` (garmin_activities_daily.py): `None` when either
operand is falsy (None or 0.0), else `round(power/ftp, 3)`. -/
def intensity_factor (power_w ftp_watts : Option ℚ) : Option ℚ :=
  if optTruthy power_w && optTruthy ftp_watts then
    some (pyRound 3 (power_w.getD 0 / ftp_watts.getD 0))
  else none

/-- `tss` (garmin_activities_daily.py): `None` when any operand is falsy,
else `round(sec * power * (power/ftp) / (ftp * 3600) * 100, 1)`. -/
def tss (duration_s power_w ftp_watts : Option ℚ) : Option ℚ :=
  if optTruthy duration_s && optTruthy power_w && optTruthy ftp_watts then
    some (pyRound 1 (duration_s.getD 0 * power_w.getD 0 *
      (power_w.getD 0 / ftp_watts.getD 0) / (ftp_watts.getD 0 * 3600) * 100))
  else none

theorem roundHalfEven_nonneg (q : ℚ) (h : 0 ≤ q) : 0 ≤ roundHalfEven q := by
  unfold roundHalfEven
  have hf : (0 : ℤ) ≤ ⌊q⌋ := Int.floor_nonneg.mpr h
  simp only []
  split_ifs <;> omega

theorem pyRound_nonneg (n : ℕ) (q : ℚ) (h : 0 ≤ q) : 0 ≤ pyRound n q := by
  unfold pyRound
  apply div_nonneg
  · exact_mod_cast roundHalfEven_nonneg _ (by positivity)
  · positivity

/-- C4 counterexample: the guards are Python truthiness tests, not `≤ 0`
tests, so a negative power of −5 W with FTP 200 W yields
`round(-5/200, 3) = -0.025`, not null.  This refutes C4 as stated (the
claim quantifies over every power input and requires null for `power ≤ 0`). -/
theorem c4_if_tss_counterexample :
    intensity_factor (some (-5)) (some 200) = some (-(1 / 40) : ℚ) ∧ ((-5 : ℚ) ≤ 0) := by
  constructor
  · with_unfolding_all decide
  · norm_num

/-- C4 (amended): `intensity_factor` and `tss` are null whenever `power` or
`ftp_watts` is null or zero (Python falsy); `tss` is additionally null when
duration is null or zero; for nonzero operands
`intensity_factor = round(power/ftp, 3)`; and for positive duration, power
and FTP, `tss` is non-negative.  (Negative operands are not nulled by these
functions, but the pipeline only feeds them `safe_float` outputs, which are
positive or None.) -/
theorem c4_if_tss_amended (duration_s power_w ftp_watts : Option ℚ) :
    ((power_w = none ∨ power_w = some 0 ∨ ftp_watts = none ∨ ftp_watts = some 0) →
      intensity_factor power_w ftp_watts = none ∧ tss duration_s power_w ftp_watts = none) ∧
    ((duration_s = none ∨ duration_s = some 0) → tss duration_s power_w ftp_watts = none) ∧
    (∀ p f : ℚ, power_w = some p → ftp_watts = some f → p ≠ 0 → f ≠ 0 →
      intensity_factor power_w ftp_watts = some (pyRound 3 (p / f))) ∧
    (∀ d p f : ℚ, duration_s = some d → power_w = some p → ftp_watts = some f →
      0 < d → 0 < p → 0 < f →
      ∃ t : ℚ, tss duration_s power_w ftp_watts = some t ∧ 0 ≤ t) := by
  refine ⟨?_, ?_, ?_, ?_⟩
  · rintro (rfl | rfl | rfl | rfl) <;>
      simp [intensity_factor, tss, optTruthy]
  · rintro (rfl | rfl) <;> simp [tss, optTruthy]
  · rintro p f rfl rfl hp hf
    simp [intensity_factor, optTruthy, hp, hf]
  · rintro d p f rfl rfl rfl hd hp hf
    refine ⟨pyRound 1 (d * p * (p / f) / (f * 3600) * 100), ?_, ?_⟩
    · simp [tss, optTruthy, ne_of_gt hd, ne_of_gt hp, ne_of_gt hf]
    · exact pyRound_nonneg _ _ (by positivity)

/-- Witness for C4 (amended) at duration 3600 s, power 200 W, FTP 250 W. -/
theorem c4_if_tss_amended_witness :
    intensity_factor (some 200) (some 250) = some (pyRound 3 (200 / 250)) ∧
    (∃ t : ℚ, tss (some 3600) (some 200) (some 250) = some t ∧ 0 ≤ t) ∧
    intensity_factor none (some 250) = none :=
  ⟨(c4_if_tss_amended (some 3600) (some 200) (some 250)).2.2.1 200 250 rfl rfl
      (by norm_num) (by norm_num),
   (c4_if_tss_amended (some 3600) (some 200) (some 250)).2.2.2 3600 200 250 rfl rfl rfl
      (by norm_num) (by norm_num) (by norm_num),
   ((c4_if_tss_amended (some 3600) none (some 250)).1 (.inl rfl)).1⟩

/-- Python `act.get(k)` where absence behaves as `None` downstream. -/
def jget (act : JObj) (k : String) : JValue :=
  (dict_get act k).getD .null

/-- `normalize_activity_type` (garmin_activities_daily.py): prefer the
structured `activityType` dict's `typeKey`/`typeName`, else the flat string
fields, string-coercing the first truthy value.  Despite its name it applies
no lowercasing or underscore normalization. -/
def normalize_activity_type (act : JObj) : String :=
  match jget act "activityType" with
  | .obj t => jStr (pyOr (jget t "typeKey") (pyOr (jget t "typeName") (.str "")))
  | _ =>
    jStr (pyOr (jget act "activityType")
      (pyOr (jget act "activityTypeName") (pyOr (jget act "activity_type") (.str ""))))

/-- `coerce_activity_id` (garmin_activities_daily.py): first truthy of the
three id fields, `None` if the chain ends in `None`, else `str(v)`. -/
def coerce_activity_id (act : JObj) : Option String :=
  match pyOr (jget act "activityId") (pyOr (jget act "activity_id") (jget act "id")) with
  | .null => none
  | v => some (jStr v)

/-- `CYCLING_TYPE_KEYS` (garmin_activities_daily.py). -/
def CYCLING_TYPE_KEYS : List String :=
  ["cycling", "road_cycling", "gravel_cycling", "mountain_biking",
   "indoor_cycling", "virtual_ride", "spinning"]

/-- `extract_best_20m_power_w` (garmin_activities_daily.py): loose scan of a
detail payload with the fixed 20-minute-power hints. -/
def extract_best_20m_power_w (detail : JObj) : Option ℚ :=
  scan_for_keys (.obj detail)
    ["20min", "20_min", "20-min", "maxavgpower", "max_avg_power",
     "maxaveragepower", "best20", "best_20"]

/-- `extract_normalized_power_w` (garmin_activities_daily.py). -/
def extract_normalized_power_w (detail : JObj) : Option ℚ :=
  scan_for_keys (.obj detail) ["normalizedpower", "weightedmeanpower", "weighted_power"]

/-- `format_pace_min_mile` (garmin_activities_daily.py): minutes per mile
from meters per second, formatted `M:SS`; null for missing or non-positive
speed.  `int()` truncation coincides with `⌊·⌋` on these positive values. -/
def format_pace_min_mile (speed_mps : Option ℚ) : Option String :=
  match speed_mps with
  | none => none
  | some s =>
    if s ≤ 0 then none
    else
      let mins_per_mile := (26.8224 : ℚ) / s
      let minutes : ℤ := ⌊mins_per_mile⌋
      let seconds : ℤ := ⌊(mins_per_mile - minutes) * 60⌋
      some (toString minutes ++ ":" ++
        (if seconds < 10 then "0" ++ toString seconds else toString seconds))

/-- Python `a or b` on optional floats (None and 0.0 are falsy). -/
def pyOrOptQ (a b : Option ℚ) : Option ℚ :=
  if optTruthy a then a else b

/-- One canonical activity row (the `DESIRED_FIELDS` schema of
garmin_activities_daily.py), with absent values as `none`. -/
structure ActivityRow where
  activity_id : Option String
  date : String
  time : String
  start_time_local : String
  title : String
  activity_type : String
  distance_m : Option ℚ
  duration_s : Option ℚ
  calories : Option ℚ
  avg_speed_mps : Option ℚ
  max_speed_mps : Option ℚ
  avg_pace_min_mile : Option String
  avg_hr : Option ℚ
  max_hr : Option ℚ
  running_cadence_spm : Option ℚ
  cycling_cadence_rpm : Option ℚ
  avg_power_w : Option ℚ
  max_power_w : Option ℚ
  elevation_gain_m : Option ℚ
  aerobic_te : Option ℚ
  anaerobic_te : Option ℚ
  best_20m_watts : Option ℚ
  ftp_watts : Option ℚ
  ftp_source : String
  normalized_power_w : Option ℚ
  intensity_factor : Option ℚ
  tss : Option ℚ

/-- `to_row` (garmin_activities_daily.py): build one canonical row from a
raw activity, an optional detail payload and the run's FTP result. -/
def to_row (act : JObj) (detail : Option JObj) (ftp_watts : Option ℚ)
    (ftp_source : String) : ActivityRow :=
  let start_local := jStr (pyOr ((dict_get act "startTimeLocal").getD (.str "")) (.str ""))
  let date_str := if 10 ≤ start_local.length then String.mk (start_local.toList.take 10) else ""
  let time_str := if 11 < start_local.length then String.mk (start_local.toList.drop 11) else ""
  let dur_s := safe_float (jget act "duration")
  let avg_speed_mps := safe_float (jget act "averageSpeed")
  let avg_power := safe_float (jget act "averagePower")
  let avg_pace := if optTruthy avg_speed_mps then format_pace_min_mile avg_speed_mps else none
  let detail_d := detail.getD []
  let best_20m := if detail_d.isEmpty then none else extract_best_20m_power_w detail_d
  let np_w := if detail_d.isEmpty then none else extract_normalized_power_w detail_d
  let np_or_avg := pyOrOptQ np_w avg_power
  let if_val := if optTruthy ftp_watts then intensity_factor np_or_avg ftp_watts else none
  let tss_val := if optTruthy ftp_watts then tss dur_s np_or_avg ftp_watts else none
  { activity_id := coerce_activity_id act
    date := date_str
    time := time_str
    start_time_local := start_local
    title := jStr (pyOr (jget act "activityName") (.str ""))
    activity_type := normalize_activity_type act
    distance_m := safe_float (jget act "distance")
    duration_s := dur_s
    calories := safe_float (jget act "calories")
    avg_speed_mps := avg_speed_mps
    max_speed_mps := safe_float (jget act "maxSpeed")
    avg_pace_min_mile := avg_pace
    avg_hr := safe_float (jget act "averageHR")
    max_hr := safe_float (jget act "maxHR")
    running_cadence_spm := safe_float (jget act "averageRunningCadenceInStepsPerMinute")
    cycling_cadence_rpm := safe_float (jget act "averageCadence")
    avg_power_w := avg_power
    max_power_w := safe_float (jget act "maxPower")
    elevation_gain_m := safe_float (pyOr (jget act "totalElevationGain") (jget act "elevationGain"))
    aerobic_te := safe_float (jget act "aerobicTrainingEffect")
    anaerobic_te := safe_float (jget act "anaerobicTrainingEffect")
    best_20m_watts := best_20m
    ftp_watts := ftp_watts
    ftp_source := ftp_source
    normalized_power_w := np_w
    intensity_factor := if_val
    tss := tss_val }

/-- C9 counterexample: for the flat upstream label `"Trail Running"` the
stored `activity_type` field is the raw string `"Trail Running"`, while its
normalized lowercase/underscored form is `"trail_running"` — the row field
is not normalized.  This refutes C9 as stated. -/
theorem c9_activity_type_counterexample :
    (to_row [("activityType", .str "Trail Running")] none none "missing").activity_type
        = "Trail Running" ∧
    normalize_key "Trail Running" = "trail_running" ∧
    ("Trail Running" : String) ≠ "trail_running" :=
  ⟨by decide, by decide, by decide⟩

/-- C9 (amended): the stored `activity_type` is the raw extracted label —
taken from the structured `activityType` sub-object's `typeKey`/`typeName`
when that value is a dict, else from the flat string fields — with no
lowercasing or space-to-underscore normalization applied to the stored
value (normalization is applied only to the filter/detail-fetch decisions). -/
theorem c9_activity_type_amended (act : JObj) (detail : Option JObj)
    (ftp_watts : Option ℚ) (ftp_source : String) :
    ((to_row act detail ftp_watts ftp_source).activity_type = normalize_activity_type act) ∧
    (∀ t : JObj, jget act "activityType" = .obj t →
      normalize_activity_type act
        = jStr (pyOr (jget t "typeKey") (pyOr (jget t "typeName") (.str "")))) ∧
    ((∀ t : JObj, jget act "activityType" ≠ .obj t) →
      normalize_activity_type act
        = jStr (pyOr (jget act "activityType")
            (pyOr (jget act "activityTypeName") (pyOr (jget act "activity_type") (.str ""))))) := by
  refine ⟨rfl, ?_, ?_⟩
  · intro t ht
    unfold normalize_activity_type
    rw [ht]
  · intro hne
    unfold normalize_activity_type
    cases hv : jget act "activityType" with
    | obj t => exact absurd hv (hne t)
    | null => rfl
    | bool b => rfl
    | num q => rfl
    | str s => rfl
    | arr items => rfl

/-- Witness for C9 (amended) at an activity with a structured type dict. -/
theorem c9_activity_type_amended_witness :
    ((to_row [("activityType", .obj [("typeKey", .str "virtual_ride")])] none none
        "missing").activity_type
      = normalize_activity_type [("activityType", .obj [("typeKey", .str "virtual_ride")])]) ∧
    (normalize_activity_type [("activityType", .obj [("typeKey", .str "virtual_ride")])]
      = jStr (pyOr (jget [("typeKey", .str "virtual_ride")] "typeKey")
          (pyOr (jget [("typeKey", .str "virtual_ride")] "typeName") (.str "")))) :=
  ⟨(c9_activity_type_amended [("activityType", .obj [("typeKey", .str "virtual_ride")])]
      none none "missing").1,
   (c9_activity_type_amended [("activityType", .obj [("typeKey", .str "virtual_ride")])]
      none none "missing").2.1 [("typeKey", .str "virtual_ride")] rfl⟩

/-- The virtual/indoor ride type keys of the FTP fallback
(garmin_activities_daily.py, resolve_ftp). -/
def virtual_ride_types : List String :=
  ["virtual_ride", "indoor_cycling", "spinning"]

/-- Pure model of the Garmin API surface `resolve_ftp` consumes: the two
settings payloads (`none` models an unavailable method or a raised,
swallowed exception), the activity listing of the lookback window, and the
per-id detail payloads (`fetch_activity_detail` returns an empty dict on
failure, so `detail` is total). -/
structure ApiModel where
  settings_method : Option JValue
  settings_endpoint : Option JValue
  activities : Option (List JObj)
  detail : String → JObj

/-- The `garth.connectapi` biometric endpoint part of
`get_cycling_ftp_from_settings` (garmin_activities_daily.py). -/
def settings_endpoint_tier (api : ApiModel) : Option ℚ :=
  match api.settings_endpoint with
  | some data => extract_ftp_watts_strict data
  | none => none

/-- `get_cycling_ftp_from_settings` (garmin_activities_daily.py): strict
scan of the `get_cycling_ftp()` payload first, else of the biometric
endpoint payload.  (`extract_ftp_watts_strict` never returns 0, so Python
truthiness of the result coincides with `isSome`.) -/
def get_cycling_ftp_from_settings (api : ApiModel) : Option ℚ :=
  match api.settings_method with
  | some data =>
    match extract_ftp_watts_strict data with
    | some ftp => some ftp
    | none => settings_endpoint_tier api
  | none => settings_endpoint_tier api

/-- The fallback loop of `resolve_ftp` (garmin_activities_daily.py): walk
the listed activities; for virtual/indoor rides with a truthy id, fetch the
detail, scan for the best 20-minute power and keep the maximum; stop after
60 checked activities. -/
def ftp_fallback_loop (detail : String → JObj) :
    List JObj → Option ℚ → Nat → Option ℚ
  | [], best, _ => best
  | act :: rest, best, checked =>
    if virtual_ride_types.contains (normalize_key (normalize_activity_type act)) then
      match coerce_activity_id act with
      | some act_id =>
        if act_id == "" then ftp_fallback_loop detail rest best checked
        else
          let v := extract_best_20m_power_w (detail act_id)
          let best2 :=
            match v, best with
            | some x, none => some x
            | some x, some b => if b < x then some x else some b
            | none, b => b
          if 60 ≤ checked + 1 then best2
          else ftp_fallback_loop detail rest best2 (checked + 1)
      | none => ftp_fallback_loop detail rest best checked
    else ftp_fallback_loop detail rest best checked

/-- `resolve_ftp` (garmin_activities_daily.py): settings tier first; else
best virtual-ride 20-minute power over the lookback listing, estimated as
`0.95 × best` and re-validated against the 50–1200 W bound. -/
def resolve_ftp (api : ApiModel) : Option ℚ × String × Option ℚ :=
  match get_cycling_ftp_from_settings api with
  | some ftp => (some ftp, "garmin_settings", none)
  | none =>
    match api.activities with
    | none => (none, "missing", none)
    | some [] => (none, "missing", none)
    | some acts =>
      match ftp_fallback_loop api.detail acts none 0 with
      | none => (none, "missing", none)
      | some best_20m =>
        let ftp_est := (0.95 : ℚ) * best_20m
        if 50 ≤ ftp_est ∧ ftp_est ≤ 1200 then
          (some ftp_est, "virtual_ride_best_20m", some best_20m)
        else (none, "missing", none)

/-- An activity the fallback loop actually scans: a virtual/indoor ride
type key and a truthy activity id. -/
def ftp_eligible (act : JObj) : Bool :=
  virtual_ride_types.contains (normalize_key (normalize_activity_type act)) &&
    (match coerce_activity_id act with
     | some s => !(s == "")
     | none => false)

/-- The 20-minute-power candidates of the scanned activities (the first 60
eligible ones, per the loop guardrail). -/
def best20_candidates (detail : String → JObj) (acts : List JObj) : List ℚ :=
  ((acts.filter ftp_eligible).take 60).filterMap
    (fun act => extract_best_20m_power_w (detail ((coerce_activity_id act).getD "")))

/-- Running maximum over a candidate list, seeded with an optional best. -/
def foldBest (best : Option ℚ) (l : List ℚ) : Option ℚ :=
  l.foldl (fun acc x =>
    match acc with
    | none => some x
    | some b => some (max b x)) best

theorem foldBest_cons (best : Option ℚ) (x : ℚ) (l : List ℚ) :
    foldBest best (x :: l)
      = foldBest (match best with
                  | none => some x
                  | some b => some (max b x)) l := rfl

theorem loop_max_eq (b x : ℚ) : (if b < x then some x else some b) = some (max b x) := by
  rcases le_or_lt x b with h | h
  · rw [if_neg (not_lt.mpr h), max_eq_left h]
  · rw [if_pos h, max_eq_right h.le]

/-- The fallback loop computes the running maximum of the candidates of the
first `60 - checked` eligible activities. -/
theorem ftp_fallback_loop_eq (detail : String → JObj) (acts : List JObj) :
    ∀ (best : Option ℚ) (checked : Nat), checked < 60 →
    ftp_fallback_loop detail acts best checked
      = foldBest best
          (((acts.filter ftp_eligible).take (60 - checked)).filterMap
            (fun act => extract_best_20m_power_w (detail ((coerce_activity_id act).getD "")))) := by
  induction acts with
  | nil => intro best checked hck; simp [ftp_fallback_loop, foldBest]
  | cons act rest ih =>
    intro best checked hck
    rw [ftp_fallback_loop]
    have htake : 60 - checked = (60 - (checked + 1)) + 1 := by omega
    by_cases hvt :
        virtual_ride_types.contains (normalize_key (normalize_activity_type act)) = true
    · rw [if_pos hvt]
      cases hid : coerce_activity_id act with
      | some act_id =>
        dsimp only
        by_cases hemp : (act_id == "") = true
        · rw [if_pos hemp]
          have helig : ftp_eligible act = false := by
            simp [ftp_eligible, hid, hemp]
          rw [List.filter_cons_of_neg (by simp [helig])]
          exact ih best checked hck
        · rw [if_neg hemp]
          have helig : ftp_eligible act = true := by
            unfold ftp_eligible
            rw [hid]
            dsimp only
            rw [hvt]
            simpa using hemp
          rw [List.filter_cons_of_pos (by simp [helig]), htake, List.take_succ_cons,
            List.filterMap_cons]
          simp only [hid, Option.getD_some]
          cases hv : extract_best_20m_power_w (detail act_id) with
          | none =>
            by_cases hguard : 60 ≤ checked + 1
            · have : 60 - (checked + 1) = 0 := by omega
              rw [this]
              simp only [List.take_zero, List.filterMap_nil]
              rw [if_pos hguard]
              rfl
            · rw [if_neg hguard]
              exact ih best (checked + 1) (by omega)
          | some x =>
            by_cases hguard : 60 ≤ checked + 1
            · have h0 : 60 - (checked + 1) = 0 := by omega
              rw [h0]
              simp only [List.take_zero, List.filterMap_nil]
              rw [if_pos hguard, foldBest_cons]
              cases best with
              | none => rfl
              | some b =>
                dsimp only
                simp only [foldBest, List.foldl_nil]
                exact loop_max_eq b x
            · rw [if_neg hguard, foldBest_cons]
              cases best with
              | none =>
                dsimp only
                exact ih (some x) (checked + 1) (by omega)
              | some b =>
                dsimp only
                rw [loop_max_eq b x]
                exact ih (some (max b x)) (checked + 1) (by omega)
      | none =>
        dsimp only
        have helig : ftp_eligible act = false := by
          simp [ftp_eligible, hid]
        rw [List.filter_cons_of_neg (by simp [helig])]
        exact ih best checked hck
    · rw [if_neg hvt]
      have helig : ftp_eligible act = false := by
        simp [ftp_eligible]
        intro h
        exact absurd h (by simpa using hvt)
      rw [List.filter_cons_of_neg (by simp [helig])]
      exact ih best checked hck

/-- The maximum best-20-minute power observed across the activities the
fallback actually scans. -/
def observed_best_20m (api : ApiModel) : Option ℚ :=
  match api.activities with
  | none => none
  | some acts => foldBest none (best20_candidates api.detail acts)

/-- C2: when the settings tier yields no FTP and the virtual-ride fallback
observes a maximum best-20-minute power `B` across the scanned activities,
`resolve_ftp` returns `(0.95 × B, "virtual_ride_best_20m", B)`, unless
`0.95 × B` falls outside 50–1200 W, in which case it returns
`(null, "missing", null)`. -/
theorem c2_virtual_ride_fallback (api : ApiModel) (B : ℚ)
    (hset : get_cycling_ftp_from_settings api = none)
    (hbest : observed_best_20m api = some B) :
    resolve_ftp api
      = if 50 ≤ (0.95 : ℚ) * B ∧ (0.95 : ℚ) * B ≤ 1200 then
          (some ((0.95 : ℚ) * B), "virtual_ride_best_20m", some B)
        else (none, "missing", none) := by
  unfold resolve_ftp
  rw [hset]
  dsimp only
  unfold observed_best_20m at hbest
  cases hacts : api.activities with
  | none => rw [hacts] at hbest; cases hbest
  | some acts =>
    rw [hacts] at hbest
    dsimp only at hbest
    cases acts with
    | nil => simp [best20_candidates, foldBest] at hbest
    | cons a rest =>
      dsimp only
      unfold best20_candidates at hbest
      have hloop := ftp_fallback_loop_eq api.detail (a :: rest) none 0 (by omega)
      rw [Nat.sub_zero] at hloop
      rw [hloop, hbest]

/-- The concrete api of the C2 witness: settings unavailable, one virtual
ride with id 123 whose detail payload carries `maxAvgPower_20min: 250`. -/
def api_c2 : ApiModel :=
  { settings_method := none
    settings_endpoint := none
    activities := some [[("activityType", .obj [("typeKey", .str "virtual_ride")]),
                         ("activityId", .num 123)]]
    detail := fun aid => if aid = "123" then [("maxAvgPower_20min", .num 250)] else [] }

/-- Witness for C2: the single virtual ride with best 20-minute power 250
resolves to `ftp_watts = 0.95 × 250 = 237.5` from source
`virtual_ride_best_20m`. -/
theorem c2_virtual_ride_fallback_witness :
    resolve_ftp api_c2 = (some ((0.95 : ℚ) * 250), "virtual_ride_best_20m", some 250) ∧
    (0.95 : ℚ) * 250 = 475 / 2 := by
  constructor
  · rw [c2_virtual_ride_fallback api_c2 250 (by rfl) (by with_unfolding_all decide)]
    rw [if_pos (by norm_num)]
  · norm_num

/-- `ActivityFilter` (activity_filter.py): include/exclude sets of
normalized type labels.  (The Python sets are modelled as lists; only
membership is used.) -/
structure ActivityFilter where
  include_types : List String
  exclude_types : List String

/-- `ActivityFilter.allows` (activity_filter.py): falsy label rejects,
exclude-set membership rejects, include-set membership accepts, default
deny. -/
def ActivityFilter.allows (flt : ActivityFilter) (activity_type : String) : Bool :=
  if activity_type == "" then false
  else
    let t := _norm activity_type
    if flt.exclude_types.contains t then false
    else flt.include_types.contains t

/-- `load_existing_activity_ids` (garmin_activities_daily.py) over the rows
of the store: collect the truthy `activity_id` cells (a `none` field is an
empty CSV cell, hence falsy, hence skipped). -/
def load_existing_activity_ids (store : List ActivityRow) : List String :=
  store.filterMap (fun r =>
    match r.activity_id with
    | some aid => if aid == "" then none else some aid
    | none => none)

/-- The per-activity accumulation loop of `main`
(garmin_activities_daily.py): skip id-less, already-seen and
filter-rejected activities; fetch a detail payload only for cycling-family
types; build the row; record the id.  The state is the `existing_ids` set
(modelled as a list) and the accumulated `new_rows`. -/
def process_activities (flt : ActivityFilter) (detail : String → JObj)
    (ftp_watts : Option ℚ) (ftp_source : String) :
    List JObj → List String → List ActivityRow → List String × List ActivityRow
  | [], existing_ids, new_rows => (existing_ids, new_rows)
  | act :: rest, existing_ids, new_rows =>
    match coerce_activity_id act with
    | none => process_activities flt detail ftp_watts ftp_source rest existing_ids new_rows
    | some act_id =>
      if act_id == "" then
        process_activities flt detail ftp_watts ftp_source rest existing_ids new_rows
      else if existing_ids.contains act_id then
        process_activities flt detail ftp_watts ftp_source rest existing_ids new_rows
      else
        let activity_type := normalize_activity_type act
        if !(flt.allows activity_type) then
          process_activities flt detail ftp_watts ftp_source rest existing_ids new_rows
        else
          let tkey := normalize_key activity_type
          let d : JObj := if CYCLING_TYPE_KEYS.contains tkey then detail act_id else []
          let row := to_row act (some d) ftp_watts ftp_source
          process_activities flt detail ftp_watts ftp_source rest
            (existing_ids ++ [act_id]) (new_rows ++ [row])

/-- The `(date, time)` sort key order of `main` (garmin_activities_daily.py). -/
def activity_row_le (a b : ActivityRow) : Bool :=
  strLt a.date b.date || ((a.date == b.date) && strLe a.time b.time)

/-- One run of the activity pipeline over the fetched activities: the new
rows (sorted by date and time) are appended to the store; when no new row
was produced the store is left as is (append of the empty list). -/
def run_daily_append (store : List ActivityRow) (flt : ActivityFilter)
    (detail : String → JObj) (ftp_watts : Option ℚ) (ftp_source : String)
    (activities : List JObj) : List ActivityRow :=
  store ++ ((process_activities flt detail ftp_watts ftp_source activities
      (load_existing_activity_ids store) []).2.mergeSort activity_row_le)

theorem to_row_activity_id (act : JObj) (d : Option JObj) (fw : Option ℚ)
    (fs : String) : (to_row act d fw fs).activity_id = coerce_activity_id act := rfl

theorem process_activities_inv (flt : ActivityFilter) (detail : String → JObj)
    (fw : Option ℚ) (fs : String) (acts : List JObj) :
    ∀ (ids : List String) (rows : List ActivityRow),
      (∀ r ∈ rows, ∃ s, r.activity_id = some s ∧ s ≠ "") →
      (rows.filterMap ActivityRow.activity_id).Nodup →
      (∀ s ∈ rows.filterMap ActivityRow.activity_id, s ∈ ids) →
      (∀ r ∈ (process_activities flt detail fw fs acts ids rows).2,
        ∃ s, r.activity_id = some s ∧ s ≠ "") ∧
      ((process_activities flt detail fw fs acts ids rows).2.filterMap
        ActivityRow.activity_id).Nodup ∧
      (∀ s ∈ (process_activities flt detail fw fs acts ids rows).2.filterMap
        ActivityRow.activity_id, s ∈ (process_activities flt detail fw fs acts ids rows).1) ∧
      (∀ s ∈ ids, s ∈ (process_activities flt detail fw fs acts ids rows).1) ∧
      (∀ s ∈ (process_activities flt detail fw fs acts ids rows).2.filterMap
        ActivityRow.activity_id,
        s ∈ rows.filterMap ActivityRow.activity_id ∨ s ∉ ids) := by
  induction acts with
  | nil =>
    intro ids rows h1 h2 h3
    simp only [process_activities]
    exact ⟨h1, h2, h3, fun s hs => hs, fun s hs => .inl hs⟩
  | cons act rest ih =>
    intro ids rows h1 h2 h3
    rw [process_activities]
    cases hid : coerce_activity_id act with
    | none => exact ih ids rows h1 h2 h3
    | some act_id =>
      dsimp only
      by_cases hemp : (act_id == "") = true
      · rw [if_pos hemp]; exact ih ids rows h1 h2 h3
      · rw [if_neg hemp]
        by_cases hdup : (ids.contains act_id) = true
        · rw [if_pos hdup]; exact ih ids rows h1 h2 h3
        · rw [if_neg hdup]
          by_cases hflt : (!(flt.allows (normalize_activity_type act))) = true
          · rw [if_pos hflt]; exact ih ids rows h1 h2 h3
          · rw [if_neg hflt]
            have hnotmem : act_id ∉ ids := by
              intro hmem
              exact hdup (by simpa using hmem)
            have hne : act_id ≠ "" := by simpa using hemp
            have hrowid :
                (to_row act (some (if CYCLING_TYPE_KEYS.contains
                    (normalize_key (normalize_activity_type act)) then detail act_id
                  else [])) fw fs).activity_id = some act_id := by
              rw [to_row_activity_id]; exact hid
            have hfm :
                ((rows ++ [to_row act (some (if CYCLING_TYPE_KEYS.contains
                    (normalize_key (normalize_activity_type act)) then detail act_id
                  else [])) fw fs]).filterMap ActivityRow.activity_id)
                  = rows.filterMap ActivityRow.activity_id ++ [act_id] := by
              rw [List.filterMap_append, List.filterMap_cons, hrowid]
              rfl
            have h1' : ∀ r ∈ rows ++ [to_row act (some (if CYCLING_TYPE_KEYS.contains
                (normalize_key (normalize_activity_type act)) then detail act_id
              else [])) fw fs], ∃ s, r.activity_id = some s ∧ s ≠ "" := by
              intro r hr
              rcases List.mem_append.mp hr with hr | hr
              · exact h1 r hr
              · rcases List.mem_singleton.mp hr with rfl
                exact ⟨act_id, hrowid, hne⟩
            have h2' : ((rows ++ [to_row act (some (if CYCLING_TYPE_KEYS.contains
                (normalize_key (normalize_activity_type act)) then detail act_id
              else [])) fw fs]).filterMap ActivityRow.activity_id).Nodup := by
              rw [hfm]
              refine List.Nodup.append h2 (List.nodup_singleton _) ?_
              intro s hs hs2
              rcases List.mem_singleton.mp hs2 with rfl
              exact hnotmem (h3 s hs)
            have h3' : ∀ s ∈ (rows ++ [to_row act (some (if CYCLING_TYPE_KEYS.contains
                (normalize_key (normalize_activity_type act)) then detail act_id
              else [])) fw fs]).filterMap ActivityRow.activity_id, s ∈ ids ++ [act_id] := by
              rw [hfm]
              intro s hs
              rcases List.mem_append.mp hs with hs | hs
              · exact List.mem_append.mpr (.inl (h3 s hs))
              · exact List.mem_append.mpr (.inr hs)
            obtain ⟨g1, g2, g3, g4, g5⟩ := ih (ids ++ [act_id]) _ h1' h2' h3'
            refine ⟨g1, g2, g3, ?_, ?_⟩
            · intro s hs
              exact g4 s (List.mem_append.mpr (.inl hs))
            · intro s hs
              rcases g5 s hs with hs2 | hs2
              · rw [hfm] at hs2
                rcases List.mem_append.mp hs2 with hs3 | hs3
                · exact .inl hs3
                · rcases List.mem_singleton.mp hs3 with rfl
                  exact .inr hnotmem
              · exact .inr (fun hmem => hs2 (List.mem_append.mpr (.inl hmem)))

theorem countP_id_eq_count (l : List ActivityRow) (i : String) :
    l.countP (fun r => r.activity_id == some i)
      = (l.filterMap ActivityRow.activity_id).count i := by
  induction l with
  | nil => rfl
  | cons r t ih =>
    rw [List.countP_cons, List.filterMap_cons]
    cases hr : r.activity_id with
    | none => simpa using ih
    | some a =>
      dsimp only
      rw [List.count_cons, ih]
      simp [beq_iff_eq]

/-- C5: a run of the activity pipeline adds no row for an identifier already
present in the store nor a second row for an identifier repeated in the
fetched sequence: if the store's `activity_id` column is unique (and its
rows carry nonempty ids), it is still unique after the run, every identifier
occurs in at most one row, and each previously stored identifier still
occurs in exactly one row. -/
theorem c5_store_unique_ids (store : List ActivityRow) (flt : ActivityFilter)
    (detail : String → JObj) (fw : Option ℚ) (fs : String) (activities : List JObj)
    (hstore : ∀ r ∈ store, ∃ s, r.activity_id = some s ∧ s ≠ "")
    (hnodup : (store.filterMap ActivityRow.activity_id).Nodup) :
    ((run_daily_append store flt detail fw fs activities).filterMap
      ActivityRow.activity_id).Nodup ∧
    (∀ i : String, (run_daily_append store flt detail fw fs activities).countP
      (fun r => r.activity_id == some i) ≤ 1) ∧
    (∀ i ∈ load_existing_activity_ids store,
      (run_daily_append store flt detail fw fs activities).countP
        (fun r => r.activity_id == some i) = 1) := by
  have hE : load_existing_activity_ids store
      = store.filterMap ActivityRow.activity_id := by
    unfold load_existing_activity_ids
    apply List.filterMap_congr
    intro r hr
    obtain ⟨s, hs, hne⟩ := hstore r hr
    rw [hs]
    simp only [beq_iff_eq]
    rw [if_neg hne]
  obtain ⟨g1, g2, g3, g4, g5⟩ := process_activities_inv flt detail fw fs activities
    (load_existing_activity_ids store) [] (by simp) (by simp) (by simp)
  have hperm : ((process_activities flt detail fw fs activities
        (load_existing_activity_ids store) []).2.mergeSort activity_row_le).Perm
      (process_activities flt detail fw fs activities
        (load_existing_activity_ids store) []).2 :=
    List.mergeSort_perm _ _
  have hpermfm := hperm.filterMap ActivityRow.activity_id
  have hsortNodup : (((process_activities flt detail fw fs activities
        (load_existing_activity_ids store) []).2.mergeSort activity_row_le).filterMap
        ActivityRow.activity_id).Nodup := hpermfm.nodup_iff.mpr g2
  have hdisj : ∀ s ∈ store.filterMap ActivityRow.activity_id,
      s ∉ (((process_activities flt detail fw fs activities
        (load_existing_activity_ids store) []).2.mergeSort activity_row_le).filterMap
        ActivityRow.activity_id) := by
    intro s hsmem hcontra
    have hsmem2 := hpermfm.mem_iff.mp hcontra
    rcases g5 s hsmem2 with h | h
    · simp at h
    · rw [hE] at h
      exact h hsmem
  have hidsNodup : ((run_daily_append store flt detail fw fs activities).filterMap
      ActivityRow.activity_id).Nodup := by
    unfold run_daily_append
    rw [List.filterMap_append]
    exact List.Nodup.append hnodup hsortNodup hdisj
  refine ⟨hidsNodup, ?_, ?_⟩
  · intro i
    rw [countP_id_eq_count]
    exact List.nodup_iff_count_le_one.mp hidsNodup i
  · intro i hi
    rw [countP_id_eq_count]
    have hle : ((run_daily_append store flt detail fw fs activities).filterMap
        ActivityRow.activity_id).count i ≤ 1 :=
      List.nodup_iff_count_le_one.mp hidsNodup i
    have hge : 1 ≤ ((run_daily_append store flt detail fw fs activities).filterMap
        ActivityRow.activity_id).count i := by
      rw [hE] at hi
      have : i ∈ (run_daily_append store flt detail fw fs activities).filterMap
          ActivityRow.activity_id := by
        unfold run_daily_append
        rw [List.filterMap_append]
        exact List.mem_append.mpr (.inl hi)
      exact List.count_pos_iff.mpr this
    omega

/-- Witness for C5: a store holding id 1 and a fetch listing id 1 (already
stored) and id 2 twice; the resulting id column is duplicate-free. -/
theorem c5_store_unique_ids_witness :
    ((run_daily_append [to_row [("activityId", .num 1),
        ("activityType", .str "running")] none none "missing"]
      (ActivityFilter.mk ["running"] []) (fun _ => []) none "missing"
      [[("activityId", .num 1), ("activityType", .str "running")],
       [("activityId", .num 2), ("activityType", .str "running")],
       [("activityId", .num 2), ("activityType", .str "running")]]).filterMap
      ActivityRow.activity_id).Nodup :=
  (c5_store_unique_ids _ _ _ _ _ _
    (by intro r hr
        rcases List.mem_singleton.mp hr with rfl
        exact ⟨"1", by decide, by decide⟩)
    (by decide)).1

/-- `HEADERS` (garmin_stats_daily.py): the canonical wellness header row. -/
def stats_HEADERS : List String :=
  ["Date",
   "Weight (lbs)", "Muscle Mass (lbs)", "Body Fat %", "Water %",
   "Sleep Total (hr)", "Sleep Deep (hr)", "Sleep REM (hr)", "Sleep Score",
   "RHR", "Min HR", "Max HR", "Avg Stress", "Respiration", "SpO2",
   "VO2 Max", "Training Status", "HRV Status", "HRV Avg",
   "Steps", "Step Goal", "Cals Total", "Cals Active",
   "Activities"]

/-- The row-retention test of the wellness save (garmin_stats_daily.py):
`row and row[0] != today` — keep non-empty rows whose first cell differs
from the run's date. -/
def stats_keep (today : String) (row : List String) : Bool :=
  match row with
  | [] => false
  | x :: _ => !(x == today)

/-- The `key=lambda x: x[0]` sort order of the wellness save.  (Every row
reaching the sort is non-empty — retained rows pass `stats_keep` and the
new row starts with the date — so `headD ""` is exactly `row[0]`.) -/
def stats_row_le (a b : List String) : Bool :=
  strLe (a.headD "") (b.headD "")

/-- The smart-save step of `main` (garmin_stats_daily.py): drop the first
line of the old file (its header, whatever it was) and any empty or
same-date row, append the new row, sort by the date column, and rewrite
the whole file as the canonical header followed by the sorted rows. -/
def replace_or_append_stats (all_data : List (List String)) (today : String)
    (new_row : List String) : List (List String) :=
  let rows := (all_data.drop 1).filter (stats_keep today)
  stats_HEADERS :: (rows ++ [new_row]).mergeSort stats_row_le

theorem charListLe_trans :
    ∀ as bs cs : List Char, charListLe as bs = true → charListLe bs cs = true →
      charListLe as cs = true := by
  intro as
  induction as with
  | nil => intro bs cs h1 h2; rfl
  | cons a as2 ih =>
    intro bs cs h1 h2
    cases bs with
    | nil => simp [charListLe] at h1
    | cons b bs2 =>
      cases cs with
      | nil => simp [charListLe] at h2
      | cons c cs2 =>
        rw [charListLe] at h1 h2 ⊢
        split_ifs at h1 h2 ⊢ <;> first
          | rfl
          | omega
          | (exact ih bs2 cs2 h1 h2)

theorem charListLe_total :
    ∀ as bs : List Char, (charListLe as bs || charListLe bs as) = true := by
  intro as
  induction as with
  | nil => intro bs; rfl
  | cons a as2 ih =>
    intro bs
    cases bs with
    | nil => simp [charListLe]
    | cons b bs2 =>
      rw [charListLe, charListLe]
      rcases Nat.lt_trichotomy a.toNat b.toNat with h | h | h
      · simp [h]
      · simp only [h, Nat.lt_irrefl, if_false]
        simpa [h] using ih bs2
      · simp [h, Nat.lt_asymm h]

theorem stats_row_le_trans (a b c : List String)
    (h1 : stats_row_le a b = true) (h2 : stats_row_le b c = true) :
    stats_row_le a c = true :=
  charListLe_trans _ _ _ h1 h2

theorem stats_row_le_total (a b : List String) :
    (stats_row_le a b || stats_row_le b a) = true :=
  charListLe_total _ _

theorem stats_keep_head (today : String) (r : List String)
    (hk : stats_keep today r = true) : r.head? ≠ some today := by
  cases r with
  | nil => simp [stats_keep] at hk
  | cons x t =>
    simp only [stats_keep] at hk
    simp only [List.head?_cons, ne_eq, Option.some.injEq]
    intro h
    rw [h] at hk
    simp at hk

/-- C6: running the daily wellness save for a date over a file already
holding a row for that date yields exactly one row for that date — the new
run's row — retains every non-empty row whose date differs, and sorts the
rewritten body ascending by the date column under the canonical header. -/
theorem c6_wellness_upsert (all_data : List (List String)) (today : String)
    (new_row : List String) (hhd : new_row.head? = some today)
    (hprev : ∃ r ∈ all_data.drop 1, r.head? = some today) :
    (replace_or_append_stats all_data today new_row).head? = some stats_HEADERS ∧
    ((replace_or_append_stats all_data today new_row).drop 1).filter
      (fun r => r.head? == some today) = [new_row] ∧
    (∀ r ∈ all_data.drop 1, r ≠ [] → r.head? ≠ some today →
      r ∈ (replace_or_append_stats all_data today new_row).drop 1) ∧
    ((replace_or_append_stats all_data today new_row).drop 1).Pairwise
      (fun a b => stats_row_le a b = true) := by
  refine ⟨rfl, ?_, ?_, ?_⟩
  · have hperm : (((all_data.drop 1).filter (stats_keep today) ++ [new_row]).mergeSort
        stats_row_le).Perm ((all_data.drop 1).filter (stats_keep today) ++ [new_row]) :=
      List.mergeSort_perm _ _
    have hfperm := hperm.filter (fun r => r.head? == some today)
    have hbase : ((all_data.drop 1).filter (stats_keep today) ++ [new_row]).filter
        (fun r => r.head? == some today) = [new_row] := by
      rw [List.filter_append]
      have h1 : ((all_data.drop 1).filter (stats_keep today)).filter
          (fun r => r.head? == some today) = [] := by
        rw [List.filter_eq_nil_iff]
        intro r hr
        have hk := List.of_mem_filter hr
        have := stats_keep_head today r hk
        simpa using this
      rw [h1]
      simp [hhd]
    rw [hbase] at hfperm
    exact List.perm_singleton.mp hfperm
  · intro r hr hne hhead
    have hk : stats_keep today r = true := by
      cases r with
      | nil => exact absurd rfl hne
      | cons x t =>
        simp only [stats_keep]
        simp only [List.head?_cons, ne_eq, Option.some.injEq] at hhead
        simpa using hhead
    have hmem : r ∈ (all_data.drop 1).filter (stats_keep today) ++ [new_row] :=
      List.mem_append.mpr (.inl (List.mem_filter.mpr ⟨hr, hk⟩))
    exact (List.mergeSort_perm _ _).mem_iff.mpr hmem
  · exact List.sorted_mergeSort stats_row_le_trans stats_row_le_total _

/-- Witness for C6 at a concrete two-row file re-run for 2024-01-02. -/
theorem c6_wellness_upsert_witness :
    (replace_or_append_stats
        [stats_HEADERS, ["2024-01-01", "a"], ["2024-01-02", "old"]]
        "2024-01-02" ["2024-01-02", "new"]).head? = some stats_HEADERS ∧
    ((replace_or_append_stats
        [stats_HEADERS, ["2024-01-01", "a"], ["2024-01-02", "old"]]
        "2024-01-02" ["2024-01-02", "new"]).drop 1).filter
      (fun r => r.head? == some "2024-01-02") = [["2024-01-02", "new"]] ∧
    (∀ r ∈ [stats_HEADERS, ["2024-01-01", "a"], ["2024-01-02", "old"]].drop 1,
      r ≠ [] → r.head? ≠ some "2024-01-02" →
      r ∈ (replace_or_append_stats
        [stats_HEADERS, ["2024-01-01", "a"], ["2024-01-02", "old"]]
        "2024-01-02" ["2024-01-02", "new"]).drop 1) ∧
    ((replace_or_append_stats
        [stats_HEADERS, ["2024-01-01", "a"], ["2024-01-02", "old"]]
        "2024-01-02" ["2024-01-02", "new"]).drop 1).Pairwise
      (fun a b => stats_row_le a b = true) :=
  c6_wellness_upsert
    [stats_HEADERS, ["2024-01-01", "a"], ["2024-01-02", "old"]]
    "2024-01-02" ["2024-01-02", "new"] rfl
    ⟨["2024-01-02", "old"], by simp, rfl⟩

/-- C10: each wellness run rewrites the file with the current canonical
header regardless of the file's previous first line, and the rewritten body
is exactly the retained rows (non-empty, date differing from the run's
date) plus the new row, as a permutation — each retained row is carried
verbatim, with no per-column remapping. -/
theorem c10_stats_rewrite_frame (all_data : List (List String)) (today : String)
    (new_row : List String) :
    (replace_or_append_stats all_data today new_row).head? = some stats_HEADERS ∧
    ((replace_or_append_stats all_data today new_row).drop 1).Perm
      (((all_data.drop 1).filter (stats_keep today)) ++ [new_row]) ∧
    (∀ r ∈ all_data.drop 1, stats_keep today r = true →
      r ∈ (replace_or_append_stats all_data today new_row).drop 1) := by
  refine ⟨rfl, List.mergeSort_perm _ _, ?_⟩
  intro r hr hk
  exact (List.mergeSort_perm _ _).mem_iff.mpr
    (List.mem_append.mpr (.inl (List.mem_filter.mpr ⟨hr, hk⟩)))

/-- Witness for C10 at a file whose first line is not the canonical header. -/
theorem c10_stats_rewrite_frame_witness :
    (replace_or_append_stats [["OldHeader"], ["2024-01-01", "a"]]
        "2024-01-02" ["2024-01-02", "x"]).head? = some stats_HEADERS ∧
    ((replace_or_append_stats [["OldHeader"], ["2024-01-01", "a"]]
        "2024-01-02" ["2024-01-02", "x"]).drop 1).Perm
      ((([["OldHeader"], ["2024-01-01", "a"]].drop 1).filter
        (stats_keep "2024-01-02")) ++ [["2024-01-02", "x"]]) ∧
    (["2024-01-01", "a"] ∈ (replace_or_append_stats [["OldHeader"], ["2024-01-01", "a"]]
        "2024-01-02" ["2024-01-02", "x"]).drop 1) :=
  ⟨(c10_stats_rewrite_frame [["OldHeader"], ["2024-01-01", "a"]]
      "2024-01-02" ["2024-01-02", "x"]).1,
   (c10_stats_rewrite_frame [["OldHeader"], ["2024-01-01", "a"]]
      "2024-01-02" ["2024-01-02", "x"]).2.1,
   (c10_stats_rewrite_frame [["OldHeader"], ["2024-01-01", "a"]]
      "2024-01-02" ["2024-01-02", "x"]).2.2 ["2024-01-01", "a"] (by simp) (by decide)⟩

/-- `csv.DictReader` row access for key `k` of a row read under `header`:
`none` when `k` is not a header column; `some v` when it is, where `v` is
the matching cell (`none` when the row is shorter than the header —
DictReader's restval).  A repeated header name keeps the last occurrence,
as dict insertion overwrites. -/
def dict_reader_get : List String → List String → String → Option (Option String)
  | [], _, _ => none
  | h :: hs, cells, k =>
    match dict_reader_get hs (cells.drop 1) k with
    | some v => some v
    | none => if h = k then some cells.head? else none

/-- One migrated row of `migrate_csv_to_schema` (garmin_activities_daily.py):
`out = {k: None for k in desired}` then `out[k] = row.get(k)` for the keys
present in the old row; `DictWriter` writes `None` cells as `""`. -/
def migrate_row (header cells desired : List String) : List String :=
  desired.map (fun k =>
    match dict_reader_get header cells k with
    | some v => v.getD ""
    | none => "")

/-- `migrate_csv_to_schema` (garmin_activities_daily.py) over the file
contents, with the two guarded I/O stages as explicit success flags:
`content = none` models an unreadable/absent file (`read_csv_header`
returns None and the function returns silently); `readOk = false` models
the row-reading `try` failing (warning, original untouched); `writeOk =
false` models the temp-file write or the atomic replace failing (warning,
temp file removed, original untouched).  `DictReader` skips blank lines.
The result is the new contents of the original path plus whether a warning
was printed; the model is a total function — no exception escapes
`migrate_csv_to_schema`. -/
def migrate_csv_model (content : Option (List (List String))) (desired : List String)
    (readOk writeOk : Bool) : Option (List (List String)) × Bool :=
  match content with
  | none => (none, false)
  | some c =>
    match c.head? with
    | none => (some c, false)
    | some header =>
      if header = [] then (some c, false)
      else if header = desired then (some c, false)
      else if readOk = false then (some c, true)
      else if writeOk = false then (some c, true)
      else
        (some (desired ::
          (((c.drop 1).filter (fun cells => !cells.isEmpty)).map
            (fun cells => migrate_row header cells desired))), false)

/-- C7: migrating a file with header `[a,b]` to canonical `[a,b,c]` yields
header `[a,b,c]`, keeps each prior row's `a`/`b` values and leaves `c`
empty; and a column `d` of the old header absent from the canonical list is
dropped. -/
theorem c7_schema_migration (a b c x y : String)
    (hab : a ≠ b) (hca : c ≠ a) (hcb : c ≠ b) :
    migrate_csv_model (some [[a, b], [x, y]]) [a, b, c] true true
      = (some [[a, b, c], [x, y, ""]], false) ∧
    (∀ d z : String, d ≠ a → d ≠ b → c ≠ d →
      migrate_csv_model (some [[a, b, d], [x, y, z]]) [a, b, c] true true
        = (some [[a, b, c], [x, y, ""]], false)) := by
  constructor
  · simp [migrate_csv_model, migrate_row, dict_reader_get,
      hab, hab.symm, hca, hca.symm, hcb, hcb.symm]
  · intro d z hda hdb hcd
    simp [migrate_csv_model, migrate_row, dict_reader_get,
      hab, hab.symm, hca, hca.symm, hcb, hcb.symm,
      hda, hda.symm, hdb, hdb.symm, hcd, hcd.symm]

/-- Witness for C7 at concrete column names. -/
theorem c7_schema_migration_witness :
    migrate_csv_model (some [["a", "b"], ["x", "y"]]) ["a", "b", "c"] true true
      = (some [["a", "b", "c"], ["x", "y", ""]], false) ∧
    migrate_csv_model (some [["a", "b", "d"], ["x", "y", "z"]]) ["a", "b", "c"] true true
      = (some [["a", "b", "c"], ["x", "y", ""]], false) :=
  ⟨(c7_schema_migration "a" "b" "c" "x" "y" (by decide) (by decide) (by decide)).1,
   (c7_schema_migration "a" "b" "c" "x" "y" (by decide) (by decide) (by decide)).2
     "d" "z" (by decide) (by decide) (by decide)⟩

/-- C8: when a migration that is actually attempted (a header exists and
differs from the canonical fields) fails at reading the existing rows or at
writing/replacing, the original file contents are left exactly as they
were and a warning is reported; the model is a total function, reflecting
that `migrate_csv_to_schema` catches every exception it raises. -/
theorem c8_migration_failure_preserves (orig : List (List String))
    (desired header : List String) (readOk writeOk : Bool)
    (hhd : orig.head? = some header) (hne : header ≠ []) (hdiff : header ≠ desired)
    (hfail : readOk = false ∨ writeOk = false) :
    migrate_csv_model (some orig) desired readOk writeOk = (some orig, true) := by
  unfold migrate_csv_model
  dsimp only
  rw [hhd]
  dsimp only
  rw [if_neg hne, if_neg hdiff]
  rcases hfail with rfl | hw
  · rw [if_pos rfl]
  · by_cases hr : readOk = false
    · rw [if_pos hr]
    · rw [if_neg hr, if_pos hw]

/-- Witness for C8: a failing row-read over a concrete two-line file leaves
it untouched and warns. -/
theorem c8_migration_failure_preserves_witness :
    migrate_csv_model (some [["a"], ["1"]]) ["a", "b"] false true
      = (some [["a"], ["1"]], true) :=
  c8_migration_failure_preserves [["a"], ["1"]] ["a", "b"] ["a"] false true
    rfl (by decide) (by decide) (.inl rfl)

end AIFitness

